import Mathlib

/-!
Verification of the temporal feature/target pipeline, the time-ordered
train/test split, the per-horizon training loop, the online single-row
feature assembly, and the raw-table merge of a short-horizon traffic
congestion forecaster.

Embedding conventions: a pandas table is a list of records in row order; a
NaN (or missing) cell is `none`; timestamps are integer epoch minutes
(timezone-aware UTC instants are coercible to such a sortable instant);
numeric cells are exact rationals.  `sort_values` is embedded as insertion
sort over the decidable key order; Python `round` (banker's rounding) is
embedded exactly on rationals.
-/

deriving instance DecidableEq for Except

namespace Traffic

/-- One row of the observation table seen by feature engineering
(`features.py`): the grouping key `point_id`, the sort key
`timestamp_utc`, and the metric column `congestion_index`
(`none` models a NaN cell). -/
structure Obs where
  point_id : String
  timestamp_utc : ℤ
  congestion_index : Option ℚ
deriving DecidableEq

/-- `df.sort_values([group_key, "timestamp_utc"])`: the lexicographic order
on `(point_id, timestamp_utc)` used before every grouped transform. -/
def obsLe (a b : Obs) : Prop :=
  a.point_id < b.point_id ∨ (a.point_id = b.point_id ∧ a.timestamp_utc ≤ b.timestamp_utc)

instance : DecidableRel obsLe := fun a b =>
  inferInstanceAs (Decidable (a.point_id < b.point_id ∨
    (a.point_id = b.point_id ∧ a.timestamp_utc ≤ b.timestamp_utc)))

instance : IsTotal Obs obsLe := by
  constructor
  intro a b
  rcases lt_trichotomy a.point_id b.point_id with h | h | h
  · exact Or.inl (Or.inl h)
  · rcases le_total a.timestamp_utc b.timestamp_utc with ht | ht
    · exact Or.inl (Or.inr ⟨h, ht⟩)
    · exact Or.inr (Or.inr ⟨h.symm, ht⟩)
  · exact Or.inr (Or.inl h)

instance : IsTrans Obs obsLe := by
  constructor
  intro a b c hab hbc
  rcases hab with h1 | ⟨h1, h1'⟩
  · rcases hbc with h2 | ⟨h2, _⟩
    · exact Or.inl (h1.trans h2)
    · exact Or.inl (h2 ▸ h1)
  · rcases hbc with h2 | ⟨h2, h2'⟩
    · exact Or.inl (h1 ▸ h2)
    · exact Or.inr ⟨h1.trans h2, h1'.trans h2'⟩

/-- The working copy every feature builder makes first:
`out.sort_values([group_key, "timestamp_utc"]).reset_index(drop=True)`. -/
def sortKeyTs (df : List Obs) : List Obs :=
  List.insertionSort obsLe df

/-- Position of row `i` within its group so far: the number of earlier rows
carrying the same `point_id` (how `groupby` numbers `i` inside its group). -/
def groupPos (l : List Obs) (e : String) (i : ℕ) : ℕ :=
  ((l.take i).filter (fun x => x.point_id == e)).length

/-- All rows of entity `e`, in the order they appear in `l` (the group that
`groupby(group_key)` forms for `e`). -/
def histOf (l : List Obs) (e : String) : List Obs :=
  l.filter (fun x => x.point_id == e)

/-- `out.groupby(group_key)[col].shift(k)` read off at row `i` of `l`: the
metric of the row `k` places earlier inside row `i`'s own group, NaN when
the group holds fewer than `k` earlier rows. -/
def groupShiftVal (l : List Obs) (k : ℕ) (i : ℕ) : Option ℚ :=
  match l[i]? with
  | none => none
  | some r =>
    let p := groupPos l r.point_id i
    if k ≤ p then ((histOf l r.point_id)[p - k]?).bind (fun x => x.congestion_index)
    else none

/-- `add_lag_features` for one lag `k`: sort by `(point_id, timestamp_utc)`,
then pair every row with its grouped lag-`k` value. -/
def addLagFeature (df : List Obs) (k : ℕ) : List (Obs × Option ℚ) :=
  let s := sortKeyTs df
  s.enum.map (fun p => (p.2, groupShiftVal s k p.1))

/-- Mean of the non-NaN entries of a window, NaN when none is present:
`rolling(window=w, min_periods=1).mean()` applied to one window. -/
def nanMean (window : List (Option ℚ)) : Option ℚ :=
  let vals := window.filterMap id
  if vals.length = 0 then none else some (vals.sum / (vals.length : ℚ))

/-- The column `g.shift(1)` of `add_rolling_features`: the grouped one-row
shift of the metric, laid out over the whole sorted table. -/
def shiftedCol (s : List Obs) : List (Option ℚ) :=
  (List.range s.length).map (fun i => groupShiftVal s 1 i)

/-- `shifted.rolling(window=w, min_periods=1).mean()`: a PLAIN (ungrouped)
rolling mean over the whole column, window `[i-w+1, i]`, defined as soon as
one non-NaN entry is in the window. -/
def rollMeanCol (col : List (Option ℚ)) (w : ℕ) : List (Option ℚ) :=
  (List.range col.length).map (fun i => nanMean ((col.take (i + 1)).drop (i + 1 - w)))

/-- `add_rolling_features` for one window `w`: sort by
`(point_id, timestamp_utc)`, shift the metric by one inside each group, then
roll an UNGROUPED window of size `w` over the resulting column. -/
def addRollMean (df : List Obs) (w : ℕ) : List (Obs × Option ℚ) :=
  let s := sortKeyTs df
  s.zip (rollMeanCol (shiftedCol s) w)

/-- Python 3 `round` on an exact rational: nearest integer, ties to the
even neighbour (banker's rounding), as `int(round(x))` computes. -/
def pyRound (q : ℚ) : ℤ :=
  let f := ⌊q⌋
  let r := q - (f : ℚ)
  if r < 1/2 then f
  else if 1/2 < r then f + 1
  else if f % 2 = 0 then f else f + 1

/-- `shift_rows = int(round(h / interval_minutes))` of `add_targets`:
note the absence of any lower clamp. -/
def shiftRows (h m : ℤ) : ℤ := pyRound ((h : ℚ) / (m : ℚ))

/-- `out.groupby(group_key)[target_col].shift(-sh)` read off at row `i`:
the metric of the row `sh` places later inside row `i`'s own group, NaN
when the group ends before that. -/
def groupTargetVal (l : List Obs) (sh : ℤ) (i : ℕ) : Option ℚ :=
  match l[i]? with
  | none => none
  | some r =>
    let j : ℤ := (groupPos l r.point_id i : ℤ) + sh
    if 0 ≤ j then ((histOf l r.point_id)[j.toNat]?).bind (fun x => x.congestion_index)
    else none

/-- `add_targets` for one horizon `h` (minutes) at sampling interval `m`
(minutes): sort by `(point_id, timestamp_utc)`, then pair every row with
the grouped future value `shift(-shift_rows)` of the metric. -/
def addTarget (df : List Obs) (h m : ℤ) : List (Obs × Option ℚ) :=
  let s := sortKeyTs df
  s.enum.map (fun p => (p.2, groupTargetVal s (shiftRows h m) p.1))

/-- One row of the engineered modeling table handed to `train_models`: the
sort key `timestamp_utc`, the metric column (used by the persistence
baseline), and the target columns `y_h` the table carries (a key `h`
present with value `none` is a NaN cell; an absent key is an absent
column). -/
structure FRow where
  timestamp_utc : ℤ
  congestion_index : Option ℚ
  targets : List (ℕ × Option ℚ)
deriving DecidableEq

/-- `df.sort_values("timestamp_utc")`: the order `time_split` sorts by. -/
def frowLe (a b : FRow) : Prop := a.timestamp_utc ≤ b.timestamp_utc

instance : DecidableRel frowLe := fun a b =>
  inferInstanceAs (Decidable (a.timestamp_utc ≤ b.timestamp_utc))

instance : IsTotal FRow frowLe := ⟨fun a b => le_total a.timestamp_utc b.timestamp_utc⟩

instance : IsTrans FRow frowLe := ⟨fun _ _ _ h1 h2 => le_trans h1 h2⟩

def sortTs (df : List FRow) : List FRow :=
  List.insertionSort frowLe df

/-- `cut = int(round(n * (1 - test_fraction)))` then
`cut = max(1, min(n - 1, cut))` of `time_split`. -/
def cutIndex (n : ℕ) (tf : ℚ) : ℤ :=
  max 1 (min ((n : ℤ) - 1) (pyRound ((n : ℚ) * (1 - tf))))

/-- `time_split`: sort by timestamp, clamp the rounded cut and slice; no
check of `n`, no random sampling. -/
def timeSplit (df : List FRow) (tf : ℚ) : List FRow × List FRow :=
  ((sortTs df).take (cutIndex (sortTs df).length tf).toNat,
   (sortTs df).drop (cutIndex (sortTs df).length tf).toNat)

/-- `train_df[ycol]` / `test_df[ycol]`: reading the target column `y_h`;
pandas raises `KeyError` when the table does not carry the column. -/
def getTargetColumn (rows : List FRow) (h : ℕ) : Except String (List (Option ℚ)) :=
  if rows.all (fun r => (r.targets.lookup h).isSome) then
    .ok (rows.map (fun r => (r.targets.lookup h).getD none))
  else .error ("KeyError: y_" ++ toString h)

/-- `evaluate`'s mean absolute error: sklearn metrics refuse NaN input and
empty arrays; otherwise the mean of the absolute errors. -/
def evaluateMAE (yTrue yPred : List (Option ℚ)) : Except String ℚ :=
  if (yTrue.all Option.isSome && yPred.all Option.isSome) = false then
    .error "ValueError: Input contains NaN"
  else if yTrue.length = 0 then
    .error "ValueError: 0 samples"
  else
    .ok (((yTrue.zip yPred).map (fun p => |p.1.getD 0 - p.2.getD 0|)).sum / (yTrue.length : ℚ))

/-- Modelled from the spec: the learned regressor itself is not code of
this repository (spec §1 puts "the specific regression algorithm used as
the 'ML model'" OUT OF SCOPE, "treated as a black-box estimator with
fit/predict"); only the input validation every estimator applies is kept
here: fitting fails on a target column containing NaN, and otherwise
succeeds. -/
def fitModel (yTrain : List (Option ℚ)) : Except String Unit :=
  if yTrain.all Option.isSome then .ok () else .error "ValueError: y contains NaN"

/-- What one successful loop iteration of `train_models` records for its
horizon (the opaque fitted estimator and its metrics are not modelled;
the baseline score and the row counts are). -/
structure HorizonResult where
  horizon : ℕ
  baseline_mae : ℚ
  n_train : ℕ
  n_test : ℕ
deriving DecidableEq

/-- The body of `train_models`' per-horizon loop: read `y_train`/`y_test`,
score the persistence baseline on the test rows, fit the regressor.  Any
failure is raised to the caller — the loop has no try/except. -/
def trainHorizon (trainRows testRows : List FRow) (h : ℕ) : Except String HorizonResult := do
  let yTr ← getTargetColumn trainRows h
  let yTe ← getTargetColumn testRows h
  let base ← evaluateMAE yTe (testRows.map (fun r => r.congestion_index))
  let _ ← fitModel yTr
  pure ⟨h, base, trainRows.length, testRows.length⟩

/-- `train_models`: one `time_split`, then a sequential loop over the
horizons accumulating the results dict; an exception at any horizon
propagates out and the partial results are lost. -/
def trainModels (df : List FRow) (horizons : List ℕ) (tf : ℚ) :
    Except String (List HorizonResult) :=
  let p := timeSplit df tf
  horizons.foldlM (fun acc h => do
    let r ← trainHorizon p.1 p.2 h
    pure (acc ++ [r])) []

/-- One row of the stored observation table as the inference path reads it:
the entity key, the sort key, and the row's remaining numeric cells as
named columns (a key present with `none` is a NaN cell; an absent key is
an absent column, e.g. a metric column the table never had). -/
structure IRow where
  point_id : String
  timestamp_utc : ℤ
  cells : List (String × Option ℚ)
deriving DecidableEq

/-- `dfp.sort_values("timestamp_utc")` inside `latest_features_for_point`. -/
def irowLe (a b : IRow) : Prop := a.timestamp_utc ≤ b.timestamp_utc

instance : DecidableRel irowLe := fun a b =>
  inferInstanceAs (Decidable (a.timestamp_utc ≤ b.timestamp_utc))

instance : IsTotal IRow irowLe := ⟨fun a b => le_total a.timestamp_utc b.timestamp_utc⟩

instance : IsTrans IRow irowLe := ⟨fun _ _ _ h1 h2 => le_trans h1 h2⟩

def sortIR (l : List IRow) : List IRow := List.insertionSort irowLe l

/-- The calendar columns `add_time_features` computes from one timestamp
(epoch minutes, UTC): `hour`, `day_of_week` (Monday = 0; day 0 of the
epoch is a Thursday), `is_weekend`. -/
def timeFeatureCells (ts : ℤ) : List (String × Option ℚ) :=
  let dow := ((ts.ediv 1440) + 3).emod 7
  [("hour", some (((ts.ediv 60).emod 24 : ℤ) : ℚ)),
   ("day_of_week", some ((dow : ℤ) : ℚ)),
   ("is_weekend", some (if 5 ≤ dow then 1 else 0))]

/-- The single-row frame after `dfp = add_time_features(dfp)`: the stored
columns of the selected row plus the calendar columns. -/
def frameOf (r : IRow) : List (String × Option ℚ) :=
  r.cells ++ timeFeatureCells r.timestamp_utc

/-- `fallback = float(dfp["congestion_index"].iloc[0]) if "congestion_index"
in dfp.columns else 0.0`: the row's own metric cell when the column exists
(a NaN cell gives a NaN fallback, as `float` of NaN is NaN), else `0.0`. -/
def fallbackVal (frame : List (String × Option ℚ)) : Option ℚ :=
  match frame.lookup "congestion_index" with
  | some v => v
  | none => some 0

/-- The fill loop `for c in feature_cols: if c not in dfp.columns:
dfp[c] = fallback`. -/
def extendFrame (frame : List (String × Option ℚ)) (cols : List String)
    (fb : Option ℚ) : List (String × Option ℚ) :=
  cols.foldl (fun fr c => if (fr.lookup c).isSome then fr else fr ++ [(c, fb)]) frame

/-- `X = dfp[feature_cols].fillna(fallback)`: select the artifact's columns
in order, then fill the NaN cells with the fallback. -/
def selectFill (frame : List (String × Option ℚ)) (cols : List String)
    (fb : Option ℚ) : List (String × Option ℚ) :=
  cols.map (fun c => (c,
    match frame.lookup c with
    | some (some x) => some x
    | some none => fb
    | none => none))

/-- `latest_features_for_point`: filter to the entity, fail when it has no
rows, take the most recent row, add calendar features, fill the columns
the artifact needs but the frame lacks, select and `fillna`. -/
def latestFeaturesForPoint (obs : List IRow) (pid : String)
    (featureCols : List String) : Except String (List (String × Option ℚ)) :=
  let dfp := obs.filter (fun r => r.point_id == pid)
  match (sortIR dfp).getLast? with
  | none => .error ("No observations found for point_id=" ++ pid)
  | some r =>
    let frame := frameOf r
    let fb := fallbackVal frame
    .ok (selectFill (extendFrame frame featureCols fb) featureCols fb)

/-- One usable raw numeric snapshot row (TomTom source) as `build_dataset`
merges it: the entity key, the merge/sort key, the metric. -/
structure TomRow where
  point_id : String
  timestamp_utc : ℤ
  congestion_index : Option ℚ
deriving DecidableEq

/-- One raw contextual record (TfL source): a single timestamp and
aggregate counters, not per-entity. -/
structure TflRow where
  timestamp_utc : ℤ
  tfl_disruptions_count : Option ℤ
  tfl_severe_disruptions_count : Option ℤ
  tfl_roads_seen : Option ℤ
deriving DecidableEq

/-- One row of the merged observation table `build_dataset` writes. -/
structure ObsRow where
  point_id : String
  timestamp_utc : ℤ
  congestion_index : Option ℚ
  tfl_disruptions_count : Option ℤ
  tfl_severe_disruptions_count : Option ℤ
  tfl_roads_seen : Option ℤ
deriving DecidableEq

/-- One merged row: a numeric row with a matched contextual record's
counters, or with the contextual columns empty when none matched. -/
def joinRow (t : TomRow) (m : Option TflRow) : ObsRow :=
  match m with
  | none => ⟨t.point_id, t.timestamp_utc, t.congestion_index, none, none, none⟩
  | some x => ⟨t.point_id, t.timestamp_utc, t.congestion_index,
      x.tfl_disruptions_count, x.tfl_severe_disruptions_count, x.tfl_roads_seen⟩

/-- `tomtom_df.merge(tfl_df, on="timestamp_utc", how="left")`: every
numeric row is paired with EVERY contextual record sharing its timestamp
(pandas row multiplication), or kept once with empty contextual columns
when none matches. -/
def mergeLeft (tom : List TomRow) (tfl : List TflRow) : List ObsRow :=
  tom.flatMap (fun t =>
    match tfl.filter (fun x => x.timestamp_utc == t.timestamp_utc) with
    | [] => [joinRow t none]
    | ms => ms.map (fun m => joinRow t (some m)))

/-- `df.sort_values(["point_id", "timestamp_utc"])` on the merged table. -/
def obsRowLe (a b : ObsRow) : Prop :=
  a.point_id < b.point_id ∨ (a.point_id = b.point_id ∧ a.timestamp_utc ≤ b.timestamp_utc)

instance : DecidableRel obsRowLe := fun a b =>
  inferInstanceAs (Decidable (a.point_id < b.point_id ∨
    (a.point_id = b.point_id ∧ a.timestamp_utc ≤ b.timestamp_utc)))

instance : IsTotal ObsRow obsRowLe := by
  constructor
  intro a b
  rcases lt_trichotomy a.point_id b.point_id with h | h | h
  · exact Or.inl (Or.inl h)
  · rcases le_total a.timestamp_utc b.timestamp_utc with ht | ht
    · exact Or.inl (Or.inr ⟨h, ht⟩)
    · exact Or.inr (Or.inr ⟨h.symm, ht⟩)
  · exact Or.inr (Or.inl h)

instance : IsTrans ObsRow obsRowLe := by
  constructor
  intro a b c hab hbc
  rcases hab with h1 | ⟨h1, h1'⟩
  · rcases hbc with h2 | ⟨h2, _⟩
    · exact Or.inl (h1.trans h2)
    · exact Or.inl (h2 ▸ h1)
  · rcases hbc with h2 | ⟨h2, h2'⟩
    · exact Or.inl (h1 ▸ h2)
    · exact Or.inr ⟨h1.trans h2, h1'.trans h2'⟩

/-- `build_dataset`'s merge step (after loading): left-join the numeric
rows with the contextual rows on timestamp alone (or append empty
contextual columns when the contextual source is empty), then sort by
`(point_id, timestamp_utc)` ascending. -/
def buildDataset (tom : List TomRow) (tfl : List TflRow) : List ObsRow :=
  let merged :=
    if tfl.length = 0 then tom.map (fun t => joinRow t none)
    else mergeLeft tom tfl
  List.insertionSort obsRowLe merged

/-! Helper lemmas shared by the claim theorems. -/

/-- A row at index `i` of `l` sits, inside the sublist of rows satisfying
`q`, exactly at the position counting the earlier rows satisfying `q`
(the bridge between `groupby` positions and per-group indexing). -/
theorem getElem?_filter_count {α} (q : α → Bool) :
    ∀ (l : List α) (i : ℕ) (r : α), l[i]? = some r → q r = true →
      (l.filter q)[((l.take i).filter q).length]? = some r := by
  intro l
  induction l with
  | nil => intro i r h _; simp at h
  | cons x xs ih =>
    intro i r h hq
    cases i with
    | zero =>
      simp only [List.getElem?_cons_zero, Option.some.injEq] at h
      subst h
      simp [List.filter_cons_of_pos hq]
    | succ j =>
      simp only [List.getElem?_cons_succ] at h
      rw [List.take_succ_cons]
      by_cases hx : q x = true
      · simp only [List.filter_cons_of_pos hx, List.length_cons,
          List.getElem?_cons_succ]
        exact ih j r h hq
      · rw [List.filter_cons_of_neg hx, List.filter_cons_of_neg hx]
        exact ih j r h hq

/-- `time_split` on a table of at most one row: the clamp forces
`cut = 1`, so the whole (sorted) table is the train part and the test
part is empty — no exception is raised. -/
theorem timeSplit_short (df : List FRow) (tf : ℚ) (h : df.length ≤ 1) :
    timeSplit df tf = (sortTs df, []) := by
  have hlen : (sortTs df).length = df.length :=
    (List.perm_insertionSort frowLe df).length_eq
  unfold timeSplit
  rcases Nat.le_one_iff_eq_zero_or_eq_one.mp h with h0 | h1
  · have : sortTs df = [] := List.length_eq_zero.mp (hlen.trans h0)
    simp [this]
  · have hs1 : (sortTs df).length = 1 := hlen.trans h1
    have hcut : (cutIndex 1 tf).toNat = 1 := by
      unfold cutIndex
      omega
    rw [hs1, hcut, List.take_of_length_le (le_of_eq hs1),
      List.drop_eq_nil_of_le (le_of_eq hs1)]

/-! Claim theorems. -/

/-- C5: for every table, entity and lag `k`, the row sitting at position
`p` of its entity's time-ordered history receives as lag-`k` feature the
metric of that history's row `p - k`, and a missing value when `p < k`;
rows of other entities never contribute. -/
theorem lag_feature_spec (df : List Obs) (k i : ℕ) (r : Obs)
    (h : (sortKeyTs df)[i]? = some r) :
    (histOf (sortKeyTs df) r.point_id)[groupPos (sortKeyTs df) r.point_id i]? = some r ∧
    (addLagFeature df k)[i]? = some (r,
      if k ≤ groupPos (sortKeyTs df) r.point_id i then
        ((histOf (sortKeyTs df) r.point_id)[groupPos (sortKeyTs df) r.point_id i - k]?).bind
          (fun x => x.congestion_index)
      else none) := by
  constructor
  · exact getElem?_filter_count (fun x => x.point_id == r.point_id)
      (sortKeyTs df) i r h (by simp)
  · simp only [addLagFeature, List.getElem?_map, List.getElem?_enum, h,
      Option.map_some', groupShiftVal]

/-- Witness for C5: in a two-entity table, the second row of entity `A`'s
history gets `A`'s first metric value as its lag-1 feature. -/
theorem lag_feature_spec_witness :
    (histOf (sortKeyTs [⟨"A", 0, some (1/5)⟩, ⟨"B", 0, some (9/10)⟩,
        ⟨"A", 10, some (2/5)⟩]) "A")[
      groupPos (sortKeyTs [⟨"A", 0, some (1/5)⟩, ⟨"B", 0, some (9/10)⟩,
        ⟨"A", 10, some (2/5)⟩]) "A" 1]? = some ⟨"A", 10, some (2/5)⟩ ∧
    (addLagFeature [⟨"A", 0, some (1/5)⟩, ⟨"B", 0, some (9/10)⟩,
        ⟨"A", 10, some (2/5)⟩] 1)[1]? = some (⟨"A", 10, some (2/5)⟩,
      if 1 ≤ groupPos (sortKeyTs [⟨"A", 0, some (1/5)⟩, ⟨"B", 0, some (9/10)⟩,
          ⟨"A", 10, some (2/5)⟩]) "A" 1 then
        ((histOf (sortKeyTs [⟨"A", 0, some (1/5)⟩, ⟨"B", 0, some (9/10)⟩,
            ⟨"A", 10, some (2/5)⟩]) "A")[
          groupPos (sortKeyTs [⟨"A", 0, some (1/5)⟩, ⟨"B", 0, some (9/10)⟩,
            ⟨"A", 10, some (2/5)⟩]) "A" 1 - 1]?).bind
          (fun x => x.congestion_index)
      else none) :=
  lag_feature_spec [⟨"A", 0, some (1/5)⟩, ⟨"B", 0, some (9/10)⟩,
    ⟨"A", 10, some (2/5)⟩] 1 1 ⟨"A", 10, some (2/5)⟩ (by with_unfolding_all decide)

/-- Counterexample to C2 as stated: at horizon 15 with effective interval
60, `int(round(15 / 60))` is `0` — not clamped to 1 — and the produced
target column `y_15` equals each row's own metric value. -/
theorem target_shift_no_minimum_counterexample :
    shiftRows 15 60 = 0 ∧
    addTarget [⟨"A", 0, some (1/2)⟩, ⟨"A", 10, some (3/4)⟩] 15 60 =
      [(⟨"A", 0, some (1/2)⟩, some (1/2)), (⟨"A", 10, some (3/4)⟩, some (3/4))] := by
  with_unfolding_all decide

/-- C2 amended: the row shift is `round(h / interval)` under banker's
rounding with NO lower clamp; the target at a row sitting at position `p`
of its entity's history is the metric at position `p + shift_rows` of
that same history (the row's own value when the shift rounds to 0),
missing when the history ends before that. -/
theorem target_shift_spec_amended (df : List Obs) (h m : ℤ) (i : ℕ) (r : Obs)
    (hr : (sortKeyTs df)[i]? = some r) :
    (histOf (sortKeyTs df) r.point_id)[groupPos (sortKeyTs df) r.point_id i]? = some r ∧
    (addTarget df h m)[i]? = some (r,
      if 0 ≤ (groupPos (sortKeyTs df) r.point_id i : ℤ) + shiftRows h m then
        ((histOf (sortKeyTs df) r.point_id)[
            ((groupPos (sortKeyTs df) r.point_id i : ℤ) + shiftRows h m).toNat]?).bind
          (fun x => x.congestion_index)
      else none) := by
  constructor
  · exact getElem?_filter_count (fun x => x.point_id == r.point_id)
      (sortKeyTs df) i r hr (by simp)
  · simp only [addTarget, List.getElem?_map, List.getElem?_enum, hr,
      Option.map_some', groupTargetVal]

/-- Witness for C2's amended claim: horizon 10 at interval 10 shifts by
one row, so the first row's target is the entity's second metric value. -/
theorem target_shift_spec_amended_witness :
    (histOf (sortKeyTs [⟨"A", 0, some (1/2)⟩, ⟨"A", 10, some (3/4)⟩]) "A")[
      groupPos (sortKeyTs [⟨"A", 0, some (1/2)⟩, ⟨"A", 10, some (3/4)⟩]) "A" 0]? =
      some ⟨"A", 0, some (1/2)⟩ ∧
    (addTarget [⟨"A", 0, some (1/2)⟩, ⟨"A", 10, some (3/4)⟩] 10 10)[0]? =
      some (⟨"A", 0, some (1/2)⟩,
      if 0 ≤ (groupPos (sortKeyTs [⟨"A", 0, some (1/2)⟩, ⟨"A", 10, some (3/4)⟩]) "A" 0 : ℤ) +
          shiftRows 10 10 then
        ((histOf (sortKeyTs [⟨"A", 0, some (1/2)⟩, ⟨"A", 10, some (3/4)⟩]) "A")[
            ((groupPos (sortKeyTs [⟨"A", 0, some (1/2)⟩, ⟨"A", 10, some (3/4)⟩]) "A" 0 : ℤ) +
              shiftRows 10 10).toNat]?).bind
          (fun x => x.congestion_index)
      else none) :=
  target_shift_spec_amended [⟨"A", 0, some (1/2)⟩, ⟨"A", 10, some (3/4)⟩] 10 10 0
    ⟨"A", 0, some (1/2)⟩ (by with_unfolding_all decide)

/-- Counterexample to C3 as stated: on a one-row table `time_split` does
not fail with any error — it returns the partition (whole table, empty). -/
theorem time_split_singleton_counterexample :
    timeSplit [⟨10, some 1, []⟩] (1/5) = ([⟨10, some 1, []⟩], []) := by
  with_unfolding_all decide

/-- C3 amended: for fewer than 2 rows the splitter raises nothing; the
clamp forces `cut = 1`, so it returns the whole sorted table as the train
partition and an empty test partition. -/
theorem time_split_small_table_amended (df : List FRow) (tf : ℚ)
    (h : df.length ≤ 1) : timeSplit df tf = (sortTs df, []) :=
  timeSplit_short df tf h

/-- Witness for C3's amended claim at a concrete one-row table. -/
theorem time_split_small_table_amended_witness :
    timeSplit [⟨5, some 0, []⟩] (3/10) = (sortTs [⟨5, some 0, []⟩], []) :=
  time_split_small_table_amended [⟨5, some 0, []⟩] (3/10) (by decide)

/-- C9: the splitter is total — for every table (n = 0 and n = 1
included) the returned partitions concatenate to the timestamp-sorted
input, and on any table of at most one row the train partition is the
whole sorted table while the test partition is empty. -/
theorem time_split_total_function (df : List FRow) (tf : ℚ) :
    (timeSplit df tf).1 ++ (timeSplit df tf).2 = sortTs df ∧
    timeSplit (df.take 1) tf = (sortTs (df.take 1), []) := by
  constructor
  · exact List.take_append_drop _ (sortTs df)
  · exact timeSplit_short (df.take 1) tf (List.length_take_le 1 df)

/-- C6: for `n ≥ 2` and any test fraction, the cut is the rounded
`(1 - test_fraction) * n` clamped into `[1, n - 1]`, both partitions are
non-empty, and train ++ test is the timestamp-sorted table (the split is
a deterministic slice, not a random sample). -/
theorem time_split_spec (df : List FRow) (tf : ℚ) (h0 : 0 < tf) (h1 : tf < 1)
    (hn : 2 ≤ df.length) :
    (timeSplit df tf).1 ++ (timeSplit df tf).2 = sortTs df ∧
    List.Sorted frowLe (sortTs df) ∧
    (timeSplit df tf).1.length = (cutIndex df.length tf).toNat ∧
    1 ≤ (timeSplit df tf).1.length ∧
    (timeSplit df tf).1.length ≤ df.length - 1 ∧
    (timeSplit df tf).1 ≠ [] ∧ (timeSplit df tf).2 ≠ [] := by
  have hlen : (sortTs df).length = df.length :=
    (List.perm_insertionSort frowLe df).length_eq
  have hC1 : 1 ≤ cutIndex df.length tf := le_max_left _ _
  have hC2 : cutIndex df.length tf ≤ (df.length : ℤ) - 1 := by
    apply max_le
    · omega
    · exact min_le_left _ _
  have hsplit : timeSplit df tf =
      ((sortTs df).take (cutIndex df.length tf).toNat,
       (sortTs df).drop (cutIndex df.length tf).toNat) := by
    unfold timeSplit
    rw [hlen]
  have htake : ((sortTs df).take (cutIndex df.length tf).toNat).length =
      (cutIndex df.length tf).toNat := by
    rw [List.length_take, hlen]
    omega
  have hdrop : ((sortTs df).drop (cutIndex df.length tf).toNat).length =
      df.length - (cutIndex df.length tf).toNat := by
    rw [List.length_drop, hlen]
  refine ⟨?_, List.sorted_insertionSort frowLe df, ?_, ?_, ?_, ?_, ?_⟩
  · rw [hsplit]
    exact List.take_append_drop _ (sortTs df)
  · rw [hsplit]
    exact htake
  · rw [hsplit]
    simp only
    omega
  · rw [hsplit]
    simp only
    omega
  · rw [hsplit]
    simp only
    rw [← List.length_pos]
    omega
  · rw [hsplit]
    simp only
    rw [← List.length_pos]
    omega

/-- Witness for C6: five rows at fraction 2/5 cut at index 3. -/
theorem time_split_spec_witness :
    (timeSplit [⟨0, some 1, []⟩, ⟨10, some 0, []⟩, ⟨20, some 1, []⟩,
        ⟨30, some 0, []⟩, ⟨40, some 1, []⟩] (2/5)).1 ++
      (timeSplit [⟨0, some 1, []⟩, ⟨10, some 0, []⟩, ⟨20, some 1, []⟩,
        ⟨30, some 0, []⟩, ⟨40, some 1, []⟩] (2/5)).2 =
      sortTs [⟨0, some 1, []⟩, ⟨10, some 0, []⟩, ⟨20, some 1, []⟩,
        ⟨30, some 0, []⟩, ⟨40, some 1, []⟩] ∧
    List.Sorted frowLe (sortTs [⟨0, some 1, []⟩, ⟨10, some 0, []⟩,
      ⟨20, some 1, []⟩, ⟨30, some 0, []⟩, ⟨40, some 1, []⟩]) ∧
    (timeSplit [⟨0, some 1, []⟩, ⟨10, some 0, []⟩, ⟨20, some 1, []⟩,
        ⟨30, some 0, []⟩, ⟨40, some 1, []⟩] (2/5)).1.length =
      (cutIndex 5 (2/5)).toNat ∧
    1 ≤ (timeSplit [⟨0, some 1, []⟩, ⟨10, some 0, []⟩, ⟨20, some 1, []⟩,
        ⟨30, some 0, []⟩, ⟨40, some 1, []⟩] (2/5)).1.length ∧
    (timeSplit [⟨0, some 1, []⟩, ⟨10, some 0, []⟩, ⟨20, some 1, []⟩,
        ⟨30, some 0, []⟩, ⟨40, some 1, []⟩] (2/5)).1.length ≤ 5 - 1 ∧
    (timeSplit [⟨0, some 1, []⟩, ⟨10, some 0, []⟩, ⟨20, some 1, []⟩,
        ⟨30, some 0, []⟩, ⟨40, some 1, []⟩] (2/5)).1 ≠ [] ∧
    (timeSplit [⟨0, some 1, []⟩, ⟨10, some 0, []⟩, ⟨20, some 1, []⟩,
        ⟨30, some 0, []⟩, ⟨40, some 1, []⟩] (2/5)).2 ≠ [] :=
  time_split_spec [⟨0, some 1, []⟩, ⟨10, some 0, []⟩, ⟨20, some 1, []⟩,
      ⟨30, some 0, []⟩, ⟨40, some 1, []⟩] (2/5)
    (by norm_num) (by norm_num) (by decide)

/-- C1 read off the code at a failing input: with window 3, the first row
of entity `B`'s history (which has ZERO preceding rows in its own entity)
receives the defined rolling mean `1/5` — entity `A`'s metric — and `B`'s
second row receives `2/5`, the mean of `A`'s value `1/5` and `B`'s value
`3/5`: the ungrouped rolling window crosses the entity boundary and is
defined with fewer than `w` preceding rows. -/
theorem rolling_mean_window_leaks_across_entities :
    addRollMean [⟨"B", 10, some (4/5)⟩, ⟨"A", 0, some (1/5)⟩, ⟨"B", 0, some (3/5)⟩,
        ⟨"A", 10, some (2/5)⟩] 3 =
      [(⟨"A", 0, some (1/5)⟩, none), (⟨"A", 10, some (2/5)⟩, some (1/5)),
       (⟨"B", 0, some (3/5)⟩, some (1/5)), (⟨"B", 10, some (4/5)⟩, some (2/5))] := by
  with_unfolding_all decide

/-- C4 read off the code at a failing input: with horizons `[15, 30]` on a
table carrying only the target column `y_30`, the loop fails at horizon 15
(`KeyError`) and the whole call errors — horizon 30 is absent from the
results even though training it alone succeeds. -/
theorem train_models_aborts_on_first_failing_horizon :
    trainModels [⟨0, some (1/2), [(30, some (1/2))]⟩,
        ⟨10, some (3/4), [(30, some (1/4))]⟩] [15, 30] (1/2) =
      .error "KeyError: y_15" ∧
    trainModels [⟨0, some (1/2), [(30, some (1/2))]⟩,
        ⟨10, some (3/4), [(30, some (1/4))]⟩] [30] (1/2) =
      .ok [⟨30, 1/2, 1, 1⟩] := by
  with_unfolding_all decide

/-- With pairwise-distinct contextual timestamps, filtering the contextual
rows by one timestamp yields the `find?` result alone. -/
theorem filter_eq_find?_toList (tfl : List TflRow) (τ : ℤ)
    (hN : (tfl.map (fun x => x.timestamp_utc)).Nodup) :
    tfl.filter (fun x => x.timestamp_utc == τ) =
      (tfl.find? (fun x => x.timestamp_utc == τ)).toList := by
  induction tfl with
  | nil => rfl
  | cons x xs ih =>
    simp only [List.map_cons, List.nodup_cons] at hN
    by_cases hx : x.timestamp_utc = τ
    · rw [List.filter_cons_of_pos (by simp [hx]),
        List.find?_cons_of_pos _ (by simp [hx])]
      have hnil : xs.filter (fun y => y.timestamp_utc == τ) = [] := by
        apply List.filter_eq_nil_iff.mpr
        intro y hy hq
        simp only [beq_iff_eq] at hq
        exact hN.1 (List.mem_map.mpr ⟨y, hy, by rw [hq, hx]⟩)
      simp [hnil]
    · rw [List.filter_cons_of_neg (by simp [hx]),
        List.find?_cons_of_neg _ (by simp [hx])]
      exact ih hN.2

/-- With pairwise-distinct contextual timestamps, the pandas left merge
keeps exactly one output row per numeric row. -/
theorem mergeLeft_eq_map (tom : List TomRow) (tfl : List TflRow)
    (hN : (tfl.map (fun x => x.timestamp_utc)).Nodup) :
    mergeLeft tom tfl =
      tom.map (fun u => joinRow u
        (tfl.find? (fun x => x.timestamp_utc == u.timestamp_utc))) := by
  induction tom with
  | nil => rfl
  | cons t ts ih =>
    unfold mergeLeft
    rw [List.flatMap_cons]
    unfold mergeLeft at ih
    rw [ih, List.map_cons]
    rw [filter_eq_find?_toList tfl t.timestamp_utc hN]
    cases hf : tfl.find? (fun x => x.timestamp_utc == t.timestamp_utc) with
    | none => simp
    | some m => simp

/-- `joinRow` keeps the numeric row's entity key. -/
theorem joinRow_point_id (u : TomRow) (m : Option TflRow) :
    (joinRow u m).point_id = u.point_id := by
  cases m <;> rfl

/-- `joinRow` keeps the numeric row's timestamp. -/
theorem joinRow_timestamp (u : TomRow) (m : Option TflRow) :
    (joinRow u m).timestamp_utc = u.timestamp_utc := by
  cases m <;> rfl

/-- Filtering a mapped list has the length of filtering by the composed
predicate. -/
theorem length_filter_map {α β} (f : α → β) (p : β → Bool) (l : List α) :
    ((l.map f).filter p).length = (l.filter (fun a => p (f a))).length := by
  induction l with
  | nil => rfl
  | cons a as ih =>
    simp only [List.map_cons, List.filter_cons]
    by_cases h : p (f a) = true
    · simp [h, ih]
    · simp [h, ih]

/-- With pairwise-distinct `(point_id, timestamp)` pairs, exactly one
numeric row carries a given member's pair. -/
theorem count_pair_one (tom : List TomRow) (t : TomRow)
    (hP : (tom.map (fun u => (u.point_id, u.timestamp_utc))).Nodup)
    (ht : t ∈ tom) :
    (tom.filter (fun u => u.point_id == t.point_id &&
      u.timestamp_utc == t.timestamp_utc)).length = 1 := by
  induction tom with
  | nil => cases ht
  | cons u us ih =>
    simp only [List.map_cons, List.nodup_cons] at hP
    by_cases hu : u.point_id = t.point_id ∧ u.timestamp_utc = t.timestamp_utc
    · rw [List.filter_cons_of_pos (by simp [hu.1, hu.2])]
      have hnil : us.filter (fun v => v.point_id == t.point_id &&
          v.timestamp_utc == t.timestamp_utc) = [] := by
        apply List.filter_eq_nil_iff.mpr
        intro v hv hq
        simp only [Bool.and_eq_true, beq_iff_eq] at hq
        exact hP.1 (List.mem_map.mpr ⟨v, hv, by rw [hq.1, hq.2, hu.1, hu.2]⟩)
      simp [hnil]
    · have hne : (u.point_id == t.point_id &&
          u.timestamp_utc == t.timestamp_utc) = false := by
        by_cases h1 : u.point_id = t.point_id
        · by_cases h2 : u.timestamp_utc = t.timestamp_utc
          · exact absurd ⟨h1, h2⟩ hu
          · simp [h2]
        · simp [h1]
      rw [List.filter_cons_of_neg (by simp [hne])]
      have ht' : t ∈ us := by
        rcases List.mem_cons.mp ht with rfl | h
        · exact absurd ⟨rfl, rfl⟩ hu
        · exact h
      exact ih hP.2 ht'

/-- Counterexample to C8 as stated: two contextual records sharing one
timestamp make the left merge emit TWO output rows for the single numeric
`(entity, timestamp)` pair. -/
theorem build_dataset_duplicate_context_counterexample :
    ((buildDataset [⟨"A", 0, some (1/2)⟩]
        [⟨0, some 1, none, none⟩, ⟨0, some 2, none, none⟩]).filter
      (fun r => r.point_id == "A" && r.timestamp_utc == 0)).length = 2 := by
  with_unfolding_all decide

/-- C8 amended: provided the contextual source has at most one record per
timestamp and the numeric source has no duplicate `(entity, timestamp)`
pair, the built table is the sort by `(entity, timestamp)` of one row per
numeric row — each left-joined on timestamp alone with the (unique)
matching contextual record, or with empty contextual columns when none
matches — and each numeric pair appears exactly once. -/
theorem build_dataset_spec_amended (tom : List TomRow) (tfl : List TflRow)
    (t : TomRow)
    (hN : (tfl.map (fun x => x.timestamp_utc)).Nodup)
    (hP : (tom.map (fun u => (u.point_id, u.timestamp_utc))).Nodup)
    (ht : t ∈ tom) :
    buildDataset tom tfl = List.insertionSort obsRowLe
      (tom.map (fun u => joinRow u
        (tfl.find? (fun x => x.timestamp_utc == u.timestamp_utc)))) ∧
    List.Sorted obsRowLe (buildDataset tom tfl) ∧
    ((buildDataset tom tfl).filter
      (fun x => x.point_id == t.point_id &&
        x.timestamp_utc == t.timestamp_utc)).length = 1 := by
  have hmap : buildDataset tom tfl = List.insertionSort obsRowLe
      (tom.map (fun u => joinRow u
        (tfl.find? (fun x => x.timestamp_utc == u.timestamp_utc)))) := by
    unfold buildDataset
    by_cases h0 : tfl.length = 0
    · have h0' : tfl = [] := List.length_eq_zero.mp h0
      subst h0'
      simp
    · rw [if_neg h0, mergeLeft_eq_map tom tfl hN]
  refine ⟨hmap, ?_, ?_⟩
  · rw [hmap]
    exact List.sorted_insertionSort obsRowLe _
  · rw [hmap]
    have hperm := List.perm_insertionSort obsRowLe
      (tom.map (fun u => joinRow u
        (tfl.find? (fun x => x.timestamp_utc == u.timestamp_utc))))
    rw [(hperm.filter _).length_eq, length_filter_map]
    simp only [joinRow_point_id, joinRow_timestamp]
    exact count_pair_one tom t hP ht

/-- Witness for C8's amended claim at a concrete pair of sources. -/
theorem build_dataset_spec_amended_witness :
    buildDataset [⟨"B", 0, some (1/2)⟩, ⟨"A", 0, some (1/4)⟩]
        [⟨0, some 2, some 1, some 9⟩] = List.insertionSort obsRowLe
      ([⟨"B", 0, some (1/2)⟩, ⟨"A", 0, some (1/4)⟩].map (fun u => joinRow u
        ([⟨0, some 2, some 1, some 9⟩].find?
          (fun x => x.timestamp_utc == u.timestamp_utc)))) ∧
    List.Sorted obsRowLe (buildDataset [⟨"B", 0, some (1/2)⟩, ⟨"A", 0, some (1/4)⟩]
      [⟨0, some 2, some 1, some 9⟩]) ∧
    ((buildDataset [⟨"B", 0, some (1/2)⟩, ⟨"A", 0, some (1/4)⟩]
        [⟨0, some 2, some 1, some 9⟩]).filter
      (fun x => x.point_id == "A" && x.timestamp_utc == 0)).length = 1 :=
  build_dataset_spec_amended [⟨"B", 0, some (1/2)⟩, ⟨"A", 0, some (1/4)⟩]
    [⟨0, some 2, some 1, some 9⟩] ⟨"A", 0, some (1/4)⟩
    (by with_unfolding_all decide) (by with_unfolding_all decide)
    (by with_unfolding_all decide)

/-- Association lookup distributes over append, preferring the left list. -/
theorem lookup_append {α β} [BEq α] (l1 l2 : List (α × β)) (a : α) :
    (l1 ++ l2).lookup a =
      match l1.lookup a with
      | some v => some v
      | none => l2.lookup a := by
  induction l1 with
  | nil => rfl
  | cons e t ih =>
    rcases e with ⟨k, b⟩
    rw [List.cons_append, List.lookup_cons, List.lookup_cons]
    cases a == k
    · exact ih
    · rfl

/-- What the fill loop leaves under each key: an existing column is kept,
a requested missing one is appended with the fallback, anything else stays
absent. -/
theorem lookup_extendFrame (cols : List String) :
    ∀ (fr : List (String × Option ℚ)) (fb : Option ℚ) (c : String),
      (extendFrame fr cols fb).lookup c =
        if (fr.lookup c).isSome then fr.lookup c
        else if c ∈ cols then some fb else none := by
  induction cols with
  | nil =>
    intro fr fb c
    cases hl : fr.lookup c <;> simp [extendFrame, hl]
  | cons c' cs ih =>
    intro fr fb c
    have hstep : extendFrame fr (c' :: cs) fb =
        extendFrame (if (fr.lookup c').isSome then fr else fr ++ [(c', fb)]) cs fb := rfl
    rw [hstep, ih]
    by_cases h' : (fr.lookup c').isSome
    · rw [if_pos h']
      by_cases hc : (fr.lookup c).isSome
      · simp [hc]
      · have hne : c ≠ c' := fun he => hc (he ▸ h')
        simp [hc, List.mem_cons, hne]
    · rw [if_neg h']
      rw [lookup_append]
      cases hl : fr.lookup c with
      | some v => simp [hl]
      | none =>
        by_cases he : c = c'
        · subst he
          simp [hl, List.lookup_cons, List.mem_cons]
        · have hbe : (c == c') = false := by simp [he]
          simp [hl, List.lookup_cons, hbe, List.mem_cons, he]

/-- What `dfp[feature_cols].fillna(fallback)` holds under each requested
column: the stored value when present, the fallback for a NaN cell or for
a column the (extended) frame lacks. -/
theorem lookup_selectFill (cols : List String) (fr : List (String × Option ℚ))
    (fb : Option ℚ) (c : String) (hc : c ∈ cols) :
    (selectFill fr cols fb).lookup c = some
      (match fr.lookup c with
       | some (some x) => some x
       | some none => fb
       | none => none) := by
  induction cols with
  | nil => cases hc
  | cons c' cs ih =>
    unfold selectFill
    rw [List.map_cons, List.lookup_cons]
    by_cases he : c = c'
    · subst he
      simp
    · have hbe : (c == c') = false := by simp [he]
      simp only [hbe]
      have hc' : c ∈ cs := by
        rcases List.mem_cons.mp hc with h | h
        · exact absurd h he
        · exact h
      exact ih hc'

/-- `getLast?` returns a member of the list. -/
theorem mem_of_getLast? {α} :
    ∀ {l : List α} {m : α}, l.getLast? = some m → m ∈ l := by
  intro l
  induction l with
  | nil => intro m h; simp at h
  | cons a as ih =>
    intro m h
    cases as with
    | nil =>
      simp only [List.getLast?_singleton, Option.some.injEq] at h
      exact h ▸ List.mem_singleton_self a
    | cons b bs =>
      rw [List.getLast?_cons_cons] at h
      exact List.mem_cons_of_mem a (ih h)

/-- The last element of a list (through `getLast?`) bounds every member
under a pairwise relation. -/
theorem pairwise_getLast?_max {α} {R : α → α → Prop} :
    ∀ {l : List α} {m x : α}, List.Pairwise R l → l.getLast? = some m →
      x ∈ l → x = m ∨ R x m := by
  intro l
  induction l with
  | nil => intro m x _ h; simp at h
  | cons a as ih =>
    intro m x hp hl hx
    cases as with
    | nil =>
      simp only [List.getLast?_singleton, Option.some.injEq] at hl
      rcases List.mem_singleton.mp hx with rfl
      exact Or.inl hl
    | cons b bs =>
      rw [List.getLast?_cons_cons] at hl
      rcases List.mem_cons.mp hx with rfl | hx'
      · have hm : m ∈ b :: bs := mem_of_getLast? hl
        exact Or.inr ((List.pairwise_cons.mp hp).1 m hm)
      · exact ih (List.pairwise_cons.mp hp).2 hl hx'

/-- C7: when the entity has rows and the most recent row carries a metric
value `v`, the assembler returns successfully (never a schema failure),
the selected row is maximal by timestamp among the entity's rows, and
every artifact column absent from the single-row frame comes back filled
with `v` — the row's own current metric value. -/
theorem inference_fallback_spec (obs : List IRow) (pid : String)
    (cols : List String) (r : IRow) (v : ℚ) (c : String)
    (hr : (sortIR (obs.filter (fun x => x.point_id == pid))).getLast? = some r)
    (hv : (frameOf r).lookup "congestion_index" = some (some v))
    (hc : c ∈ cols)
    (habs : (frameOf r).lookup c = none) :
    latestFeaturesForPoint obs pid cols =
      .ok (selectFill (extendFrame (frameOf r) cols (some v)) cols (some v)) ∧
    (selectFill (extendFrame (frameOf r) cols (some v)) cols (some v)).lookup c =
      some (some v) ∧
    (obs.filter (fun x => x.point_id == pid)).all
      (fun x => decide (x.timestamp_utc ≤ r.timestamp_utc)) = true := by
  have hfb : fallbackVal (frameOf r) = some v := by
    unfold fallbackVal
    rw [hv]
  refine ⟨?_, ?_, ?_⟩
  · simp only [latestFeaturesForPoint]
    rw [hr]
    simp [hfb]
  · rw [lookup_selectFill cols _ (some v) c hc,
      lookup_extendFrame cols (frameOf r) (some v) c, habs]
    simp [hc]
  · rw [List.all_eq_true]
    intro x hx
    simp only [decide_eq_true_eq]
    have hx' : x ∈ sortIR (obs.filter (fun y => y.point_id == pid)) :=
      (List.perm_insertionSort irowLe _).mem_iff.mpr hx
    have hs : List.Sorted irowLe (sortIR (obs.filter (fun y => y.point_id == pid))) :=
      List.sorted_insertionSort irowLe _
    rcases pairwise_getLast?_max hs hr hx' with rfl | hR
    · exact le_refl _
    · exact hR

/-- Witness for C7: the lag column required by the artifact is filled with
the most recent row's own metric `7/10`. -/
theorem inference_fallback_spec_witness :
    latestFeaturesForPoint
        [⟨"A", 0, [("congestion_index", some (3/5))]⟩,
         ⟨"A", 10, [("congestion_index", some (7/10)), ("aux", none)]⟩,
         ⟨"B", 5, [("congestion_index", some (1/10))]⟩] "A"
        ["congestion_index_lag_1", "hour", "congestion_index"] =
      .ok (selectFill (extendFrame
          (frameOf ⟨"A", 10, [("congestion_index", some (7/10)), ("aux", none)]⟩)
          ["congestion_index_lag_1", "hour", "congestion_index"] (some (7/10)))
        ["congestion_index_lag_1", "hour", "congestion_index"] (some (7/10))) ∧
    (selectFill (extendFrame
        (frameOf ⟨"A", 10, [("congestion_index", some (7/10)), ("aux", none)]⟩)
        ["congestion_index_lag_1", "hour", "congestion_index"] (some (7/10)))
      ["congestion_index_lag_1", "hour", "congestion_index"]
      (some (7/10))).lookup "congestion_index_lag_1" = some (some (7/10)) ∧
    (([⟨"A", 0, [("congestion_index", some (3/5))]⟩,
       ⟨"A", 10, [("congestion_index", some (7/10)), ("aux", none)]⟩,
       ⟨"B", 5, [("congestion_index", some (1/10))]⟩] : List IRow).filter
        (fun x => x.point_id == "A")).all
      (fun x => decide (x.timestamp_utc ≤ 10)) = true :=
  inference_fallback_spec
    [⟨"A", 0, [("congestion_index", some (3/5))]⟩,
     ⟨"A", 10, [("congestion_index", some (7/10)), ("aux", none)]⟩,
     ⟨"B", 5, [("congestion_index", some (1/10))]⟩] "A"
    ["congestion_index_lag_1", "hour", "congestion_index"]
    ⟨"A", 10, [("congestion_index", some (7/10)), ("aux", none)]⟩ (7/10)
    "congestion_index_lag_1"
    (by with_unfolding_all decide) (by with_unfolding_all decide)
    (by decide) (by with_unfolding_all decide)

/-- C10: the fallback is also applied to NaN cells of columns that DO
exist in the single-row frame, and when the frame lacks the metric column
entirely the fallback used everywhere is `0.0`. -/
theorem inference_fallback_policy_details (obs : List IRow) (pid : String)
    (cols : List String) (r : IRow) (c c2 : String)
    (hr : (sortIR (obs.filter (fun x => x.point_id == pid))).getLast? = some r)
    (hmiss : (frameOf r).lookup "congestion_index" = none)
    (hc : c ∈ cols) (hcell : (frameOf r).lookup c = some none)
    (hc2 : c2 ∈ cols) (habs : (frameOf r).lookup c2 = none) :
    fallbackVal (frameOf r) = some 0 ∧
    latestFeaturesForPoint obs pid cols =
      .ok (selectFill (extendFrame (frameOf r) cols (some 0)) cols (some 0)) ∧
    (selectFill (extendFrame (frameOf r) cols (some 0)) cols (some 0)).lookup c =
      some (some 0) ∧
    (selectFill (extendFrame (frameOf r) cols (some 0)) cols (some 0)).lookup c2 =
      some (some 0) := by
  have hfb : fallbackVal (frameOf r) = some 0 := by
    unfold fallbackVal
    rw [hmiss]
  refine ⟨hfb, ?_, ?_, ?_⟩
  · simp only [latestFeaturesForPoint]
    rw [hr]
    simp [hfb]
  · rw [lookup_selectFill cols _ (some 0) c hc,
      lookup_extendFrame cols (frameOf r) (some 0) c, hcell]
    simp
  · rw [lookup_selectFill cols _ (some 0) c2 hc2,
      lookup_extendFrame cols (frameOf r) (some 0) c2, habs]
    simp [hc2]

/-- Witness for C10: a frame with no metric column fills its NaN cell
`aux` and the absent lag column both with `0`. -/
theorem inference_fallback_policy_details_witness :
    fallbackVal (frameOf ⟨"A", 0, [("aux", none)]⟩) = some 0 ∧
    latestFeaturesForPoint [⟨"A", 0, [("aux", none)]⟩] "A"
        ["aux", "congestion_index_lag_1"] =
      .ok (selectFill (extendFrame (frameOf ⟨"A", 0, [("aux", none)]⟩)
          ["aux", "congestion_index_lag_1"] (some 0))
        ["aux", "congestion_index_lag_1"] (some 0)) ∧
    (selectFill (extendFrame (frameOf ⟨"A", 0, [("aux", none)]⟩)
        ["aux", "congestion_index_lag_1"] (some 0))
      ["aux", "congestion_index_lag_1"] (some 0)).lookup "aux" = some (some 0) ∧
    (selectFill (extendFrame (frameOf ⟨"A", 0, [("aux", none)]⟩)
        ["aux", "congestion_index_lag_1"] (some 0))
      ["aux", "congestion_index_lag_1"] (some 0)).lookup "congestion_index_lag_1" =
      some (some 0) :=
  inference_fallback_policy_details [⟨"A", 0, [("aux", none)]⟩] "A"
    ["aux", "congestion_index_lag_1"] ⟨"A", 0, [("aux", none)]⟩
    "aux" "congestion_index_lag_1"
    (by with_unfolding_all decide) (by with_unfolding_all decide)
    (by decide) (by with_unfolding_all decide)
    (by decide) (by with_unfolding_all decide)

end Traffic
